import Mathlib

/-!
# Verification of the summy bot core pipeline

A shallow embedding of the repository's core functions, together with
theorems settling the specification claims about them.

Python strings are modelled as `List Char` (a string is a sequence of
characters; the inputs we reason about are plain text).  Python's
`str.replace(pat, rep)` — replacing every non-overlapping occurrence,
scanning left to right — is modelled by `pyReplace`.  Python's slice
`s[:k]` (with possibly negative `k`) is modelled by `pySliceTo`.

Source files embedded here:
* `src/utils/telegram_utils.py`   — `prepare_message_for_telegram`
* `src/services/config_manager.py` — `ConfigManager`
* `src/utils/openai_utils.py`     — prompt construction and the provider wrapper
* `src/services/text_extractor.py` — `TextExtractor.extract_from_url` (DOM part)
* `src/bot/telegram_bot.py`       — `summarize_article`, `respond_summary`
-/

/-! ## Python string primitives -/

/-- One scan step of Python `str.replace`, with explicit fuel so that the
definition is structural and kernel-reducible.  With fuel at least the
length of the string it implements the full left-to-right,
non-overlapping replacement. -/
def replaceGo : Nat → List Char → List Char → List Char → List Char
  | 0, s, _, _ => s
  | _ + 1, [], _, _ => []
  | fuel + 1, c :: cs, pat, rep =>
    if pat ≠ [] ∧ pat.isPrefixOf (c :: cs) then
      rep ++ replaceGo fuel ((c :: cs).drop pat.length) pat rep
    else
      c :: replaceGo fuel cs pat rep

/-- Python `s.replace(pat, rep)` on character lists (for non-empty `pat`;
the source only ever replaces non-empty literals). -/
def pyReplace (s pat rep : List Char) : List Char :=
  replaceGo s.length s pat rep

theorem replaceGo_nil (f : Nat) (pat rep : List Char) :
    replaceGo f [] pat rep = [] := by
  cases f <;> rfl

theorem replaceGo_fuel_irrel (pat rep : List Char) :
    ∀ f₁ f₂ (s : List Char), s.length ≤ f₁ → s.length ≤ f₂ →
      replaceGo f₁ s pat rep = replaceGo f₂ s pat rep := by
  intro f₁
  induction f₁ with
  | zero =>
    intro f₂ s h₁ _
    have hs : s = [] := List.length_eq_zero.mp (Nat.le_zero.mp h₁)
    subst hs
    rw [replaceGo_nil, replaceGo_nil]
  | succ f ih =>
    intro f₂ s h₁ h₂
    cases s with
    | nil => rw [replaceGo_nil, replaceGo_nil]
    | cons c cs =>
      cases f₂ with
      | zero => exact absurd h₂ (by simp)
      | succ g =>
        show (if pat ≠ [] ∧ pat.isPrefixOf (c :: cs) then _ else _)
            = (if pat ≠ [] ∧ pat.isPrefixOf (c :: cs) then _ else _)
        by_cases h : pat ≠ [] ∧ pat.isPrefixOf (c :: cs)
        · rw [if_pos h, if_pos h]
          have hpat : 1 ≤ pat.length := by
            cases pat with
            | nil => exact absurd rfl h.1
            | cons _ _ => simp
          have hlen : ((c :: cs).drop pat.length).length ≤ f := by
            rw [List.length_drop]
            simp only [List.length_cons] at h₁ ⊢
            omega
          have hlen' : ((c :: cs).drop pat.length).length ≤ g := by
            rw [List.length_drop]
            simp only [List.length_cons] at h₂ ⊢
            omega
          rw [ih _ _ hlen hlen']
        · rw [if_neg h, if_neg h]
          have hc : cs.length ≤ f := by
            simp only [List.length_cons] at h₁; omega
          have hc' : cs.length ≤ g := by
            simp only [List.length_cons] at h₂; omega
          rw [ih _ _ hc hc']

theorem pyReplace_nil (pat rep : List Char) : pyReplace [] pat rep = [] := rfl

theorem pyReplace_cons_pos {pat : List Char} (c : Char) (cs rep : List Char)
    (h₁ : pat ≠ []) (h₂ : pat.isPrefixOf (c :: cs)) :
    pyReplace (c :: cs) pat rep
      = rep ++ pyReplace ((c :: cs).drop pat.length) pat rep := by
  show replaceGo (cs.length + 1) (c :: cs) pat rep = _
  rw [show replaceGo (cs.length + 1) (c :: cs) pat rep
      = if pat ≠ [] ∧ pat.isPrefixOf (c :: cs) then
          rep ++ replaceGo cs.length ((c :: cs).drop pat.length) pat rep
        else c :: replaceGo cs.length cs pat rep from rfl]
  rw [if_pos ⟨h₁, h₂⟩]
  have hpat : 1 ≤ pat.length := by
    cases pat with
    | nil => exact absurd rfl h₁
    | cons _ _ => simp
  have hlen : ((c :: cs).drop pat.length).length ≤ cs.length := by
    rw [List.length_drop]; simp; omega
  rw [replaceGo_fuel_irrel pat rep cs.length ((c :: cs).drop pat.length).length _
      hlen (Nat.le_refl _)]
  rfl

theorem pyReplace_cons_neg {pat : List Char} (c : Char) (cs rep : List Char)
    (h : ¬(pat ≠ [] ∧ pat.isPrefixOf (c :: cs))) :
    pyReplace (c :: cs) pat rep = c :: pyReplace cs pat rep := by
  show replaceGo (cs.length + 1) (c :: cs) pat rep = _
  rw [show replaceGo (cs.length + 1) (c :: cs) pat rep
      = if pat ≠ [] ∧ pat.isPrefixOf (c :: cs) then
          rep ++ replaceGo cs.length ((c :: cs).drop pat.length) pat rep
        else c :: replaceGo cs.length cs pat rep from rfl]
  rw [if_neg h]
  rfl

/-- Python slice `s[:k]` where `k` may be negative. -/
def pySliceTo (s : List Char) (k : Int) : List Char :=
  if 0 ≤ k then s.take k.toNat else s.take (s.length - (-k).toNat)

/-- Characters stripped by Python `str.strip()` (ASCII whitespace). -/
def isPySpace (c : Char) : Bool :=
  c == ' ' || c == '\t' || c == '\n' || c == '\r' || c == '\x0b' || c == '\x0c'

/-- Python `str.strip()` on character lists. -/
def pyStrip (l : List Char) : List Char :=
  ((l.dropWhile isPySpace).reverse.dropWhile isPySpace).reverse

/-- Python `str.strip()` on `String`. -/
def pyStripS (s : String) : String :=
  String.mk (pyStrip s.toList)

/-! ## Formatter (`src/utils/telegram_utils.py`, `prepare_message_for_telegram`)

The source performs, in order: the two `tags_to_replace` substitutions,
the eight `tags_to_remove` deletions, deletion of the characters
`&`, `<`, `>`, the bullet rewrite `"- " -> "\n-  "`, the sentence-break
rewrite `". " -> ".\n"`, and finally truncation. -/

/-- All transformation steps of `prepare_message_for_telegram` before the
final truncation. -/
def prepare_pre (summary : List Char) : List Char :=
  let s := pyReplace summary "<li>".toList "\n- ".toList
  let s := pyReplace s "</li>".toList []
  let s := pyReplace s "<html>".toList []
  let s := pyReplace s "</html>".toList []
  let s := pyReplace s "<body>".toList []
  let s := pyReplace s "</body>".toList []
  let s := pyReplace s "<p>".toList []
  let s := pyReplace s "</p>".toList []
  let s := pyReplace s "<ul>".toList []
  let s := pyReplace s "</ul>".toList []
  let s := pyReplace s ['&'] []
  let s := pyReplace s ['<'] []
  let s := pyReplace s ['>'] []
  let s := pyReplace s "- ".toList "\n-  ".toList
  pyReplace s ". ".toList ".\n".toList

/-- `prepare_message_for_telegram(summary, max_chars)` from
`src/utils/telegram_utils.py`: the transformation pipeline followed by
`summary[:max_chars-3] + "..."` when the result exceeds `max_chars`. -/
def prepare_message_for_telegram (summary : List Char) (max_chars : Nat) : List Char :=
  let s := prepare_pre summary
  if max_chars < s.length then pySliceTo s ((max_chars : Int) - 3) ++ "...".toList
  else s

/-- `String` wrapper around the formatter. -/
def prepare_message_for_telegramS (s : String) (max_chars : Nat) : String :=
  String.mk (prepare_message_for_telegram s.toList max_chars)

example : prepare_message_for_telegram "ab".toList 1 = "...".toList := by decide
example : prepare_message_for_telegram "abcdefgh".toList 5 = "ab...".toList := by decide
example : prepare_message_for_telegram "a- b".toList 100 = "a\n-  b".toList := by decide

/-! ## ConfigStore (`src/services/config_manager.py`)

The Firestore document is modelled as `Option BotConfig` (the singleton
`config` document, absent or present); a write that the persistence
layer rejects is modelled by the `persistOk` flag and leaves the store
unchanged.  A raised `ValueError` is `Except.error ()` (the messages are
irrelevant to the claims). -/

structure BotConfig where
  lang : String
  words_limit : Int
  telegram_message_size_limit : Int
deriving DecidableEq

/-- `ConfigManager.default_config`. -/
def default_config : BotConfig :=
  { lang := "eng", words_limit := 300, telegram_message_size_limit := 4096 }

/-- `ConfigManager.read_or_initialize_config`: returns the configuration
and the store after the call. -/
def read_or_initialize_config : Option BotConfig → BotConfig × Option BotConfig
  | some c => (c, some c)
  | none => (default_config, some default_config)

/-- `ConfigManager.update_config(lang, words_limit,
telegram_message_size_limit)`: validation happens before any write (a
`ValueError` leaves the store untouched); on valid input the document is
overwritten and `True` returned, unless the persistence layer fails, in
which case the exception is caught and `False` returned.  (The Python
`isinstance(_, int)` checks hold by typing in this embedding.) -/
def update_config (lang : String) (words_limit telegram_message_size_limit : Int)
    (persistOk : Bool) (store : Option BotConfig) :
    Except Unit Bool × Option BotConfig :=
  if ¬(lang = "eng" ∨ lang = "heb") then (Except.error (), store)
  else if words_limit < 0 ∨ 800 < words_limit then (Except.error (), store)
  else if telegram_message_size_limit < 1 ∨ 4096 < telegram_message_size_limit then
    (Except.error (), store)
  else if persistOk then
    (Except.ok true, some ⟨lang, words_limit, telegram_message_size_limit⟩)
  else (Except.ok false, store)

example : update_config "eng" 801 4096 true none = (Except.error (), none) := rfl
example : update_config "heb" 300 4096 true none
    = (Except.ok true, some ⟨"heb", 300, 4096⟩) := rfl

/-! ## Summarizer prompt (`src/utils/openai_utils.py`, `get_openai_summary`) -/

/-- The kind of source a text was extracted from (spec §3,
`ExtractedContent.sourceKind`). -/
inductive SourceKind where
  | ArticleBody
  | FullPage
  | PdfDocument
deriving DecidableEq

/-- The `is_webpage` flag the orchestrator passes to the summarizer:
`extract_from_url` returns `is_full_page = True` exactly for a full-page
extraction, and `summarize_pdf` passes `False`. -/
def is_webpage_of : SourceKind → Bool
  | .FullPage => true
  | .ArticleBody => false
  | .PdfDocument => false

/-- The prompt built by `OpenAIUtils.get_openai_summary` (the part of the
function before the provider call). -/
def get_openai_summary_prompt (text : String) (is_webpage : Bool)
    (lang : String) (words_limit : Int) : String :=
  let translation_instruction :=
    if lang = "heb" then
      "Translate the answer to Hebrew, except Brands or technology terms and definitions. "
    else ""
  let base_prompt :=
    translation_instruction ++ "Summarize this text extracted from a "
      ++ (if is_webpage then "webpage" else "article") ++ "."
  let base_prompt :=
    if is_webpage then
      base_prompt ++ "Remove any non-article elements like ads or navigation links. "
    else base_prompt
  let base_prompt :=
    base_prompt
      ++ "Please provide a concise summary of the following article, "
      ++ "focusing on the main points, arguments, and conclusions. "
      ++ "The summary should be clear, informative, and no longer than "
      ++ toString words_limit
      ++ " words. "
      ++ "Replace bullet points with dashes (-), and use spaces to indicate indentation. "
  base_prompt ++ "\n\n" ++ text

/-! ## Responder (`src/bot/telegram_bot.py`, `respond_summary`, and
`src/utils/openai_utils.py`, `get_openai_response`)

The external completion API is a capability `String → Except Unit String`
returning the raw message content or failing.  `get_openai_response`
strips the content and re-raises failures; `respond_summary` builds the
prompt, calls it, and formats the result with the configured limit. -/

/-- `OpenAIUtils.get_openai_response`: call the provider, strip the
content, propagate the failure otherwise. -/
def get_openai_response (complete : String → Except Unit String)
    (prompt : String) : Except Unit String :=
  match complete prompt with
  | Except.ok r => Except.ok (pyStripS r)
  | Except.error e => Except.error e

/-- The prompt `f"{last_text}\n\n\n\n\n\n{user_resp}\n\n"` built by
`TelegramBot.respond_summary`. -/
def respond_prompt (last_text user_resp : String) : String :=
  last_text ++ "\n\n\n\n\n\n" ++ user_resp ++ "\n\n"

/-- The completion-and-formatting part of `TelegramBot.respond_summary`
(after the last article has been retrieved from the content store). -/
def respond_summary (last_text user_resp : String) (message_limit : Nat)
    (complete : String → Except Unit String) : Except Unit String :=
  match get_openai_response complete (respond_prompt last_text user_resp) with
  | Except.ok response => Except.ok (prepare_message_for_telegramS response message_limit)
  | Except.error e => Except.error e

/-! ## Orchestrator state (`src/bot/telegram_bot.py`, `summarize_article`) -/

/-- The observable state touched by the `/summ` handler: the config
document, the single `Last_Article` slot in the content store, the
replies sent, and the number of completion-capability invocations. -/
structure BotState where
  configStore : Option BotConfig
  lastArticle : Option String
  replies : List String
  completionCalls : Nat
deriving DecidableEq

/-- `TelegramBot.summarize_article`, after extraction returned
`(article_text, is_webpage)`.  Python truthiness: the body only runs for
non-empty `article_text`.  The GCS upload failure is caught and logged
(`storeOk = false` leaves the slot unchanged); a completion failure
propagates before any reply or upload. -/
def summarize_article (article_text : String) (is_webpage : Bool)
    (complete : String → Except Unit String) (storeOk : Bool)
    (st : BotState) : BotState :=
  if article_text = "" then st
  else
    let rd := read_or_initialize_config st.configStore
    let prompt := get_openai_summary_prompt article_text is_webpage
      rd.1.lang rd.1.words_limit
    match get_openai_response complete prompt with
    | Except.error _ =>
      { st with configStore := rd.2, completionCalls := st.completionCalls + 1 }
    | Except.ok raw =>
      let summary :=
        prepare_message_for_telegramS raw rd.1.telegram_message_size_limit.toNat
      { configStore := rd.2
        lastArticle := if storeOk then some article_text else st.lastArticle
        replies := st.replies ++ [summary]
        completionCalls := st.completionCalls + 1 }

/-! ## Extractor (`src/services/text_extractor.py`, `extract_from_url`)

The parsed page is a tree of elements and text nodes (the BeautifulSoup
soup).  `extract_from_url` first decomposes `script`/`style` subtrees,
then picks `soup.find("article") or soup.find("div",
class_="article-content") or soup.find("main")` (BeautifulSoup `find` is
a depth-first pre-order search; `or` takes the first hit), and joins the
container's `stripped_strings` — each text node `strip()`ed, empty ones
skipped — with single spaces. -/

inductive HtmlNode where
  | elem (tag : String) (classes : List String) (children : List HtmlNode)
  | textNode (s : String)

/-- The document: the top-level nodes of the soup. -/
abbrev HtmlDoc := List HtmlNode

mutual

/-- `decompose()` of every `script`/`style` subtree. -/
def removeScriptStyle : HtmlNode → Option HtmlNode
  | .textNode s => some (.textNode s)
  | .elem t cls ch =>
    if t = "script" ∨ t = "style" then none
    else some (.elem t cls (removeScriptStyleList ch))

def removeScriptStyleList : List HtmlNode → List HtmlNode
  | [] => []
  | n :: ns =>
    match removeScriptStyle n with
    | some m => m :: removeScriptStyleList ns
    | none => removeScriptStyleList ns

end

mutual

/-- BeautifulSoup `find`: first element (depth-first, pre-order)
satisfying the predicate on tag name and class list. -/
def findElem (p : String → List String → Bool) : HtmlNode → Option HtmlNode
  | .textNode _ => none
  | .elem t cls ch =>
    if p t cls then some (.elem t cls ch) else findList p ch

def findList (p : String → List String → Bool) : List HtmlNode → Option HtmlNode
  | [] => none
  | n :: ns =>
    match findElem p n with
    | some r => some r
    | none => findList p ns

end

mutual

/-- The text-node strings of a subtree, in document order. -/
def nodeStrings : HtmlNode → List String
  | .textNode s => [s]
  | .elem _ _ ch => childStrings ch

def childStrings : List HtmlNode → List String
  | [] => []
  | n :: ns => nodeStrings n ++ childStrings ns

end

/-- BeautifulSoup `stripped_strings` (as a list): each string stripped,
whitespace-only strings skipped. -/
def strippedOf (xs : List String) : List String :=
  (xs.map pyStripS).filter (fun s => s != "")

/-- Matches `soup.find("article")`. -/
def isArticleElem (t : String) (_ : List String) : Bool := t == "article"

/-- Matches `soup.find("div", class_="article-content")`. -/
def isArticleContentDiv (t : String) (cls : List String) : Bool :=
  t == "div" && cls.contains "article-content"

/-- Matches `soup.find("main")`. -/
def isMainElem (t : String) (_ : List String) : Bool := t == "main"

/-- The pure part of `TextExtractor.extract_from_url`, from the parsed
page onwards: returns `(text, is_full_page)`. -/
def extract_from_url_dom (doc : HtmlDoc) : String × Bool :=
  let cleaned := removeScriptStyleList doc
  let article_body :=
    match findList isArticleElem cleaned with
    | some b => some b
    | none =>
      match findList isArticleContentDiv cleaned with
      | some b => some b
      | none => findList isMainElem cleaned
  match article_body with
  | some body => (String.intercalate " " (strippedOf (nodeStrings body)), false)
  | none => (String.intercalate " " (strippedOf (childStrings cleaned)), true)

/-- Modelled from the spec (§4.1): the content container is found by
trying, in priority order, the semantic `article` element, the
`article-content` class container, then a `main` element. -/
def spec_pick_container (cleaned : HtmlDoc) : Option HtmlNode :=
  [isArticleElem, isArticleContentDiv, isMainElem].findSome?
    (fun p => findList p cleaned)

/-- Modelled from the spec (§4.1): extraction result with an explicit
`SourceKind` — the container's visible text and `ArticleBody` when a
container is found, the whole document's visible text and `FullPage`
otherwise. -/
def spec_extract (doc : HtmlDoc) : String × SourceKind :=
  let cleaned := removeScriptStyleList doc
  match spec_pick_container cleaned with
  | some body =>
    (String.intercalate " " (strippedOf (nodeStrings body)), SourceKind.ArticleBody)
  | none =>
    (String.intercalate " " (strippedOf (childStrings cleaned)), SourceKind.FullPage)

example :
    extract_from_url_dom
      [.elem "html" [] [
        .elem "script" [] [.textNode "var x = 1;"],
        .elem "article" [] [.textNode "  hello ", .textNode "world  "],
        .textNode "footer"]]
    = ("hello world", false) := rfl

example :
    extract_from_url_dom
      [.elem "html" [] [.elem "div" [] [.textNode " a "], .textNode "b"]]
    = ("a b", true) := rfl

/-! ## ConfigStore lemmas -/

theorem update_config_invalid (lang : String) (wl tl : Int) (store : Option BotConfig)
    (h : ¬(lang = "eng" ∨ lang = "heb") ∨ wl < 0 ∨ 800 < wl ∨ tl < 1 ∨ 4096 < tl)
    (persistOk : Bool) :
    update_config lang wl tl persistOk store = (Except.error (), store) := by
  unfold update_config
  split_ifs with h1 h2 h3 h4 <;>
    first
    | rfl
    | (exfalso
       rcases h with h | h
       · exact h h1
       · omega)

theorem update_config_valid_true (lang : String) (wl tl : Int) (store : Option BotConfig)
    (hl : lang = "eng" ∨ lang = "heb") (h0 : 0 ≤ wl) (h8 : wl ≤ 800)
    (h1 : 1 ≤ tl) (h4 : tl ≤ 4096) :
    update_config lang wl tl true store = (Except.ok true, some ⟨lang, wl, tl⟩) := by
  unfold update_config
  rw [if_neg (not_not_intro hl), if_neg (by omega : ¬(wl < 0 ∨ 800 < wl)),
    if_neg (by omega : ¬(tl < 1 ∨ 4096 < tl)), if_pos rfl]

theorem update_config_valid_false (lang : String) (wl tl : Int) (store : Option BotConfig)
    (hl : lang = "eng" ∨ lang = "heb") (h0 : 0 ≤ wl) (h8 : wl ≤ 800)
    (h1 : 1 ≤ tl) (h4 : tl ≤ 4096) :
    update_config lang wl tl false store = (Except.ok false, store) := by
  unfold update_config
  rw [if_neg (not_not_intro hl), if_neg (by omega : ¬(wl < 0 ∨ 800 < wl)),
    if_neg (by omega : ¬(tl < 1 ∨ 4096 < tl)), if_neg (by simp)]

/-- C2: `update` raises (leaving the store unchanged) exactly on
out-of-range input; on in-range input it persists those values and
returns true, and returns false (without raising) exactly when the
persistence layer fails. -/
theorem c2_update_contract (lang : String) (wl tl : Int) (store : Option BotConfig) :
    ((¬(lang = "eng" ∨ lang = "heb") ∨ wl < 0 ∨ 800 < wl ∨ tl < 1 ∨ 4096 < tl) →
      ∀ persistOk, update_config lang wl tl persistOk store = (Except.error (), store))
    ∧ ((lang = "eng" ∨ lang = "heb") → 0 ≤ wl → wl ≤ 800 → 1 ≤ tl → tl ≤ 4096 →
      update_config lang wl tl true store = (Except.ok true, some ⟨lang, wl, tl⟩)
      ∧ update_config lang wl tl false store = (Except.ok false, store)) :=
  ⟨fun h persistOk => update_config_invalid lang wl tl store h persistOk,
   fun hl h0 h8 h1 h4 =>
    ⟨update_config_valid_true lang wl tl store hl h0 h8 h1 h4,
     update_config_valid_false lang wl tl store hl h0 h8 h1 h4⟩⟩

/-- Witness for C2 at concrete inputs: `wordLimit = 801` raises with the
store unchanged; `(heb, 300, 4096)` persists and returns true. -/
theorem c2_update_contract_witness :
    update_config "eng" 801 4096 true none = (Except.error (), none)
    ∧ update_config "heb" 300 4096 true none
      = (Except.ok true, some ⟨"heb", 300, 4096⟩) :=
  ⟨(c2_update_contract "eng" 801 4096 none).1 (Or.inr (by omega)) true,
   ((c2_update_contract "heb" 300 4096 none).2 (Or.inr rfl) (by omega) (by omega)
      (by omega) (by omega)).1⟩

/-- C5: for every in-range configuration, a successful `update` stores
exactly those three fields and `readOrInitialize` afterwards returns
them unchanged, leaving the store as it is (round-trip). -/
theorem c5_update_read_roundtrip (lang : String) (wl tl : Int) (store : Option BotConfig)
    (hl : lang = "eng" ∨ lang = "heb") (h0 : 0 ≤ wl) (h8 : wl ≤ 800)
    (h1 : 1 ≤ tl) (h4 : tl ≤ 4096) :
    update_config lang wl tl true store = (Except.ok true, some ⟨lang, wl, tl⟩)
    ∧ read_or_initialize_config (some ⟨lang, wl, tl⟩)
      = (⟨lang, wl, tl⟩, some ⟨lang, wl, tl⟩) :=
  ⟨update_config_valid_true lang wl tl store hl h0 h8 h1 h4, rfl⟩

/-- Witness for C5 at `(heb, 123, 2000)` over an arbitrary prior store. -/
theorem c5_update_read_roundtrip_witness :
    update_config "heb" 123 2000 true (some default_config)
      = (Except.ok true, some ⟨"heb", 123, 2000⟩)
    ∧ read_or_initialize_config (some ⟨"heb", 123, 2000⟩)
      = (⟨"heb", 123, 2000⟩, some ⟨"heb", 123, 2000⟩) :=
  c5_update_read_roundtrip "heb" 123 2000 (some default_config) (Or.inr rfl)
    (by omega) (by omega) (by omega) (by omega)

/-- C6: `readOrInitialize` on the empty store returns the default
configuration `{eng, 300, 4096}` and persists it; a second call returns
the same configuration and leaves the store unchanged. -/
theorem c6_read_or_initialize_default :
    read_or_initialize_config none = (default_config, some default_config)
    ∧ read_or_initialize_config (some default_config)
      = (default_config, some default_config)
    ∧ default_config
      = { lang := "eng", words_limit := 300, telegram_message_size_limit := 4096 } :=
  ⟨rfl, rfl, rfl⟩

/-! ## Summarizer prompt theorem -/

/-- C3: the summarization prompt is, in order, the translation
instruction (present iff the language is heb), the framing instruction
naming the source (webpage for FullPage, article for ArticleBody and
PdfDocument), the ignore-non-article instruction (present iff the source
is FullPage), the fixed word-limit/bullet instruction, then a blank line
and the raw text. -/
theorem c3_summary_prompt_structure (text : String) (sk : SourceKind)
    (lang : String) (wl : Int) :
    get_openai_summary_prompt text (is_webpage_of sk) lang wl =
      (if lang = "heb" then
        "Translate the answer to Hebrew, except Brands or technology terms and definitions. "
      else "")
      ++ "Summarize this text extracted from a "
      ++ (if sk = SourceKind.FullPage then "webpage" else "article")
      ++ "."
      ++ (if sk = SourceKind.FullPage then
        "Remove any non-article elements like ads or navigation links. "
      else "")
      ++ "Please provide a concise summary of the following article, "
      ++ "focusing on the main points, arguments, and conclusions. "
      ++ "The summary should be clear, informative, and no longer than "
      ++ toString wl
      ++ " words. "
      ++ "Replace bullet points with dashes (-), and use spaces to indicate indentation. "
      ++ "\n\n" ++ text := by
  cases sk <;>
    simp [get_openai_summary_prompt, is_webpage_of, String.append_assoc]

/-! ## Extractor theorem -/

/-- C4: `extractFromUrl` refines the specified extraction: the content
container is selected in priority order article element, article-content
class container, main element; when found, the text is the
space-joined stripped strings of that container with sourceKind
ArticleBody; otherwise the whole document with sourceKind FullPage. -/
theorem c4_extract_refines_spec (doc : HtmlDoc) :
    spec_extract doc
      = ((extract_from_url_dom doc).1,
         if (extract_from_url_dom doc).2 then SourceKind.FullPage
         else SourceKind.ArticleBody) := by
  unfold spec_extract extract_from_url_dom spec_pick_container
  cases h1 : findList isArticleElem (removeScriptStyleList doc) with
  | some b => simp [List.findSome?, h1]
  | none =>
    cases h2 : findList isArticleContentDiv (removeScriptStyleList doc) with
    | some b => simp [List.findSome?, h1, h2]
    | none =>
      cases h3 : findList isMainElem (removeScriptStyleList doc) with
      | some b => simp [List.findSome?, h1, h2, h3]
      | none => simp [List.findSome?, h1, h2, h3]

/-! ## Responder theorems -/

/-- C9 (amended): the prompt is lastArticleText, the fixed separator of
six newlines, the user question, then a trailing blank-line suffix; the
completion capability is invoked on exactly that prompt with no added
instructions; a completion failure propagates unchanged; a completion
result is whitespace-stripped by the provider wrapper and formatted with
the configured message limit. -/
theorem c9_respond_contract (last q : String) (limit : Nat)
    (complete : String → Except Unit String) :
    respond_prompt last q = last ++ "\n\n\n\n\n\n" ++ q ++ "\n\n"
    ∧ (∀ e, complete (respond_prompt last q) = Except.error e →
        respond_summary last q limit complete = Except.error e)
    ∧ (∀ r, complete (respond_prompt last q) = Except.ok r →
        respond_summary last q limit complete
          = Except.ok (prepare_message_for_telegramS (pyStripS r) limit)) := by
  refine ⟨rfl, ?_, ?_⟩
  · intro e he
    unfold respond_summary get_openai_response
    rw [he]
  · intro r hr
    unfold respond_summary get_openai_response
    rw [hr]

/-- Witness for C9 at concrete inputs. -/
theorem c9_respond_contract_witness :
    respond_summary "A" "B" 4096 (fun _ => Except.ok " x ")
      = Except.ok (prepare_message_for_telegramS (pyStripS " x ") 4096) :=
  (c9_respond_contract "A" "B" 4096 (fun _ => Except.ok " x ")).2.2 " x " rfl

/-- Counterexample to C9 as stated: the built prompt does not end with
the user question — it carries a trailing blank-line suffix (its last
character is a newline, while the question ends in B), so it is not
lastArticleText ++ separator ++ userQuestion for any separator. -/
theorem c9_counterexample :
    respond_prompt "A" "B" ≠ "A" ++ "\n\n\n\n\n\n" ++ "B"
    ∧ List.getLast? (respond_prompt "A" "B").toList = some '\n'
    ∧ List.getLast? ("B" : String).toList = some 'B' := by
  refine ⟨?_, rfl, rfl⟩
  decide

/-! ## Orchestrator frame theorem -/

/-- A completion capability used in witnesses: always answers S. -/
def exampleComplete : String → Except Unit String := fun _ => Except.ok "S"

/-- A bot state used in witnesses: initialized config, empty last-article
slot, no replies, no completion calls. -/
def exampleState : BotState :=
  { configStore := some default_config, lastArticle := none
    replies := [], completionCalls := 0 }

theorem summarize_article_empty (is_webpage : Bool)
    (complete : String → Except Unit String) (storeOk : Bool) (st : BotState) :
    summarize_article "" is_webpage complete storeOk st = st := by
  unfold summarize_article
  rw [if_pos rfl]

theorem summarize_article_completion_ok {t : String} (h0 : t ≠ "")
    (is_webpage : Bool) {complete : String → Except Unit String}
    (storeOk : Bool) (st : BotState) {raw : String}
    (hg : get_openai_response complete
      (get_openai_summary_prompt t is_webpage
        (read_or_initialize_config st.configStore).1.lang
        (read_or_initialize_config st.configStore).1.words_limit)
      = Except.ok raw) :
    summarize_article t is_webpage complete storeOk st
      = { configStore := (read_or_initialize_config st.configStore).2
          lastArticle := if storeOk then some t else st.lastArticle
          replies := st.replies ++ [prepare_message_for_telegramS raw
            (read_or_initialize_config st.configStore).1.telegram_message_size_limit.toNat]
          completionCalls := st.completionCalls + 1 } := by
  unfold summarize_article
  rw [if_neg h0]
  simp only [hg]

theorem summarize_article_completion_error {t : String} (h0 : t ≠ "")
    (is_webpage : Bool) {complete : String → Except Unit String}
    (storeOk : Bool) (st : BotState) {e : Unit}
    (hg : get_openai_response complete
      (get_openai_summary_prompt t is_webpage
        (read_or_initialize_config st.configStore).1.lang
        (read_or_initialize_config st.configStore).1.words_limit)
      = Except.error e) :
    summarize_article t is_webpage complete storeOk st
      = { st with configStore := (read_or_initialize_config st.configStore).2
                  completionCalls := st.completionCalls + 1 } := by
  unfold summarize_article
  rw [if_neg h0]
  simp only [hg]

/-- C10: when extraction returns empty text, the `/summ` handler sends no
reply, never invokes the completion capability, and leaves the
last-article slot (and all other state) unchanged; the slot is
overwritten — always to the extracted text — only when the text is
non-empty and a summary was produced by the completion capability. -/
theorem c10_empty_extraction_frame (is_webpage : Bool)
    (complete : String → Except Unit String) (storeOk : Bool) (st : BotState) :
    summarize_article "" is_webpage complete storeOk st = st
    ∧ ∀ t : String,
        (summarize_article t is_webpage complete storeOk st).lastArticle
          ≠ st.lastArticle →
        t ≠ ""
        ∧ ∃ r, complete (get_openai_summary_prompt t is_webpage
              (read_or_initialize_config st.configStore).1.lang
              (read_or_initialize_config st.configStore).1.words_limit)
            = Except.ok r
          ∧ (summarize_article t is_webpage complete storeOk st).lastArticle
            = some t := by
  constructor
  · exact summarize_article_empty is_webpage complete storeOk st
  · intro t ht
    by_cases h0 : t = ""
    · exfalso
      apply ht
      subst h0
      rw [summarize_article_empty is_webpage complete storeOk st]
    · refine ⟨h0, ?_⟩
      cases hcc : complete (get_openai_summary_prompt t is_webpage
          (read_or_initialize_config st.configStore).1.lang
          (read_or_initialize_config st.configStore).1.words_limit) with
      | error e =>
        exfalso
        apply ht
        have hg : get_openai_response complete
            (get_openai_summary_prompt t is_webpage
              (read_or_initialize_config st.configStore).1.lang
              (read_or_initialize_config st.configStore).1.words_limit)
            = Except.error e := by
          unfold get_openai_response
          rw [hcc]
        rw [summarize_article_completion_error h0 is_webpage storeOk st hg]
      | ok r =>
        have hg : get_openai_response complete
            (get_openai_summary_prompt t is_webpage
              (read_or_initialize_config st.configStore).1.lang
              (read_or_initialize_config st.configStore).1.words_limit)
            = Except.ok (pyStripS r) := by
          unfold get_openai_response
          rw [hcc]
        cases storeOk with
        | false =>
          exfalso
          apply ht
          rw [summarize_article_completion_ok h0 is_webpage false st hg]
          simp
        | true =>
          refine ⟨r, rfl, ?_⟩
          rw [summarize_article_completion_ok h0 is_webpage true st hg]
          simp

/-- Witness for C10: with a non-empty article, a succeeding completion
and a succeeding store, the slot is overwritten with the article text. -/
theorem c10_empty_extraction_frame_witness :
    ("x" : String) ≠ ""
    ∧ ∃ r, exampleComplete (get_openai_summary_prompt "x" false
          (read_or_initialize_config exampleState.configStore).1.lang
          (read_or_initialize_config exampleState.configStore).1.words_limit)
        = Except.ok r
      ∧ (summarize_article "x" false exampleComplete true exampleState).lastArticle
        = some "x" :=
  (c10_empty_extraction_frame false exampleComplete true exampleState).2 "x"
    (by decide)

/-! ## Formatter lemmas

`hasPair a b l` decides whether the two-character pattern `a, b` occurs
(adjacently) in `l`; the formatter patterns `"- "` and `". "` are of
this shape. -/

def hasPair (a b : Char) : List Char → Bool
  | x :: y :: rest => (x == a && y == b) || hasPair a b (y :: rest)
  | _ => false

theorem hasPair_cons_eq_false {a b c : Char} {l : List Char} :
    hasPair a b (c :: l) = false
      ↔ ¬(c = a ∧ l.head? = some b) ∧ hasPair a b l = false := by
  cases l with
  | nil => simp [hasPair]
  | cons d m =>
    rw [show hasPair a b (c :: d :: m)
        = ((c == a && d == b) || hasPair a b (d :: m)) from rfl]
    by_cases h1 : c = a
    · by_cases h2 : d = b
      · subst h1; subst h2; simp
      · subst h1; simp [h2]
    · simp [h1]

theorem mem_of_isPrefixOf :
    ∀ {pat l : List Char}, pat.isPrefixOf l → ∀ {a : Char}, a ∈ pat → a ∈ l := by
  intro pat
  induction pat with
  | nil =>
    intro l _ a ha
    exact absurd ha (List.not_mem_nil a)
  | cons p ps ih =>
    intro l hp a ha
    cases l with
    | nil => exact absurd hp (by simp [List.isPrefixOf])
    | cons b bs =>
      have hpb : p = b ∧ ps.isPrefixOf bs := by
        simpa [List.isPrefixOf, Bool.and_eq_true, beq_iff_eq] using hp
      rcases List.mem_cons.mp ha with h | h
      · rw [h, hpb.1]
        exact List.mem_cons_self b bs
      · exact List.mem_cons_of_mem b (ih hpb.2 h)

theorem pyReplace_id_of_not_mem {a : Char} {pat : List Char} (ha : a ∈ pat)
    {s : List Char} (hs : a ∉ s) (rep : List Char) : pyReplace s pat rep = s := by
  induction s with
  | nil => exact pyReplace_nil pat rep
  | cons c cs ih =>
    have hnp : ¬(pat ≠ [] ∧ pat.isPrefixOf (c :: cs)) := by
      rintro ⟨-, hp⟩
      exact hs (mem_of_isPrefixOf hp ha)
    rw [pyReplace_cons_neg c cs rep hnp,
      ih (fun h => hs (List.mem_cons_of_mem c h))]

theorem pyReplace_id_of_no_pair {a b : Char} {s : List Char}
    (h : hasPair a b s = false) (rep : List Char) : pyReplace s [a, b] rep = s := by
  induction s with
  | nil => exact pyReplace_nil _ _
  | cons c cs ih =>
    have hnp : ¬(([a, b] : List Char) ≠ [] ∧ ([a, b] : List Char).isPrefixOf (c :: cs)) := by
      rintro ⟨-, hp⟩
      cases cs with
      | nil => simp [List.isPrefixOf] at hp
      | cons d m =>
        have hcd : a = c ∧ b = d := by
          simpa [List.isPrefixOf, Bool.and_eq_true, beq_iff_eq] using hp
        rw [show hasPair a b (c :: d :: m)
            = ((c == a && d == b) || hasPair a b (d :: m)) from rfl] at h
        simp [← hcd.1, ← hcd.2] at h
    rw [pyReplace_cons_neg c cs rep hnp, ih (hasPair_cons_eq_false.mp h).2]

theorem mem_replaceGo {ch : Char} {pat rep : List Char} :
    ∀ (f : Nat) (s : List Char), ch ∈ replaceGo f s pat rep → ch ∈ s ∨ ch ∈ rep := by
  intro f
  induction f with
  | zero =>
    intro s h
    exact Or.inl h
  | succ f ih =>
    intro s h
    cases s with
    | nil =>
      rw [replaceGo_nil] at h
      exact absurd h (List.not_mem_nil ch)
    | cons c cs =>
      by_cases hp : pat ≠ [] ∧ pat.isPrefixOf (c :: cs)
      · rw [show replaceGo (f + 1) (c :: cs) pat rep
            = if pat ≠ [] ∧ pat.isPrefixOf (c :: cs) then
                rep ++ replaceGo f ((c :: cs).drop pat.length) pat rep
              else c :: replaceGo f cs pat rep from rfl, if_pos hp] at h
        rcases List.mem_append.mp h with h | h
        · exact Or.inr h
        · rcases ih _ h with h | h
          · exact Or.inl (List.mem_of_mem_drop h)
          · exact Or.inr h
      · rw [show replaceGo (f + 1) (c :: cs) pat rep
            = if pat ≠ [] ∧ pat.isPrefixOf (c :: cs) then
                rep ++ replaceGo f ((c :: cs).drop pat.length) pat rep
              else c :: replaceGo f cs pat rep from rfl, if_neg hp] at h
        rcases List.mem_cons.mp h with h | h
        · exact Or.inl (h ▸ List.mem_cons_self c cs)
        · rcases ih _ h with h | h
          · exact Or.inl (List.mem_cons_of_mem c h)
          · exact Or.inr h

theorem mem_pyReplace {ch : Char} {s pat rep : List Char}
    (h : ch ∈ pyReplace s pat rep) : ch ∈ s ∨ ch ∈ rep :=
  mem_replaceGo s.length s h

theorem head?_pyReplace_pair (a b rc : Char) (rrest : List Char) (s : List Char) :
    (pyReplace s [a, b] (rc :: rrest)).head? = none
    ∨ (pyReplace s [a, b] (rc :: rrest)).head? = some rc
    ∨ (pyReplace s [a, b] (rc :: rrest)).head? = s.head? := by
  cases s with
  | nil => exact Or.inl rfl
  | cons c cs =>
    by_cases hp : (([a, b] : List Char) ≠ [] ∧ ([a, b] : List Char).isPrefixOf (c :: cs))
    · rw [pyReplace_cons_pos c cs _ hp.1 hp.2]
      exact Or.inr (Or.inl rfl)
    · rw [pyReplace_cons_neg c cs _ hp]
      exact Or.inr (Or.inr rfl)

theorem dot_replace_pairs :
    ∀ (f : Nat) (s : List Char), s.length ≤ f →
      hasPair '.' ' ' (pyReplace s ['.', ' '] ['.', '\n']) = false
      ∧ (hasPair '-' ' ' s = false →
          hasPair '-' ' ' (pyReplace s ['.', ' '] ['.', '\n']) = false) := by
  intro f
  induction f with
  | zero =>
    intro s hs
    have h0 : s = [] := List.length_eq_zero.mp (Nat.le_zero.mp hs)
    subst h0
    exact ⟨rfl, fun _ => rfl⟩
  | succ f ih =>
    intro s hs
    cases s with
    | nil => exact ⟨rfl, fun _ => rfl⟩
    | cons c cs =>
      by_cases hp : (['.', ' '] : List Char).isPrefixOf (c :: cs)
      · cases cs with
        | nil => simp [List.isPrefixOf] at hp
        | cons d m =>
          have hcd : '.' = c ∧ ' ' = d := by
            simpa [List.isPrefixOf, Bool.and_eq_true, beq_iff_eq] using hp
          have hpos := pyReplace_cons_pos c (d :: m) ['.', '\n'] (by simp) hp
          rw [show ((c :: d :: m).drop (['.', ' '] : List Char).length) = m from rfl]
            at hpos
          have hm : m.length ≤ f := by
            simp only [List.length_cons] at hs; omega
          have IH := ih m hm
          constructor
          · rw [hpos, List.cons_append, List.cons_append, List.nil_append]
            apply hasPair_cons_eq_false.mpr
            refine ⟨?_, ?_⟩
            · rintro ⟨-, hh⟩
              rw [List.head?_cons] at hh
              simp at hh
            · apply hasPair_cons_eq_false.mpr
              refine ⟨?_, IH.1⟩
              rintro ⟨h1, -⟩
              simp at h1
          · intro hdash
            rw [hpos, List.cons_append, List.cons_append, List.nil_append]
            have hdm : hasPair '-' ' ' m = false :=
              (hasPair_cons_eq_false.mp ((hasPair_cons_eq_false.mp hdash).2)).2
            apply hasPair_cons_eq_false.mpr
            refine ⟨?_, hasPair_cons_eq_false.mpr ⟨?_, IH.2 hdm⟩⟩
            · rintro ⟨h1, -⟩
              simp at h1
            · rintro ⟨h1, -⟩
              simp at h1
      · have hnp : ¬((['.', ' '] : List Char) ≠ []
            ∧ (['.', ' '] : List Char).isPrefixOf (c :: cs)) := fun hh => hp hh.2
        have hneg := pyReplace_cons_neg c cs ['.', '\n'] hnp
        have hcs : cs.length ≤ f := by
          simp only [List.length_cons] at hs; omega
        have IH := ih cs hcs
        have hhead := head?_pyReplace_pair '.' ' ' '.' ['\n'] cs
        constructor
        · rw [hneg]
          apply hasPair_cons_eq_false.mpr
          refine ⟨?_, IH.1⟩
          rintro ⟨hca, hh⟩
          rcases hhead with h | h | h
          · rw [h] at hh; exact absurd hh (by simp)
          · rw [h] at hh; simp at hh
          · rw [h] at hh
            cases cs with
            | nil => simp at hh
            | cons d m =>
              rw [List.head?_cons] at hh
              have hd : d = ' ' := by simpa using hh
              apply hp
              rw [hca, hd]
              simp [List.isPrefixOf]
        · intro hdash
          rw [hneg]
          have htail : hasPair '-' ' ' cs = false :=
            (hasPair_cons_eq_false.mp hdash).2
          apply hasPair_cons_eq_false.mpr
          refine ⟨?_, IH.2 htail⟩
          rintro ⟨hca, hh⟩
          rcases hhead with h | h | h
          · rw [h] at hh; exact absurd hh (by simp)
          · rw [h] at hh; simp at hh
          · rw [h] at hh
            cases cs with
            | nil => simp at hh
            | cons d m =>
              rw [List.head?_cons] at hh
              have hd : d = ' ' := by simpa using hh
              exact (hasPair_cons_eq_false.mp hdash).1
                ⟨hca, by rw [List.head?_cons, hd]⟩

theorem no_dotspace_after_dot_replace (s : List Char) :
    hasPair '.' ' ' (pyReplace s ['.', ' '] ['.', '\n']) = false :=
  (dot_replace_pairs s.length s (Nat.le_refl _)).1

theorem no_dashspace_after_dot_replace {s : List Char}
    (h : hasPair '-' ' ' s = false) :
    hasPair '-' ' ' (pyReplace s ['.', ' '] ['.', '\n']) = false :=
  (dot_replace_pairs s.length s (Nat.le_refl _)).2 h

theorem hasPair_append_false {a b : Char} {l r : List Char}
    (hl : hasPair a b l = false) (hr : hasPair a b r = false)
    (hb : r.head? ≠ some b) : hasPair a b (l ++ r) = false := by
  induction l with
  | nil => simpa using hr
  | cons c cs ih =>
    rw [List.cons_append]
    have h1 := hasPair_cons_eq_false.mp hl
    apply hasPair_cons_eq_false.mpr
    refine ⟨?_, ih h1.2⟩
    rintro ⟨hca, hh⟩
    cases cs with
    | nil => exact hb (by simpa using hh)
    | cons d m =>
      rw [List.cons_append, List.head?_cons] at hh
      exact h1.1 ⟨hca, by rw [List.head?_cons]; exact hh⟩

theorem hasPair_take_false {a b : Char} :
    ∀ (l : List Char) (k : Nat), hasPair a b l = false →
      hasPair a b (l.take k) = false := by
  intro l
  induction l with
  | nil => intro k _; simp [hasPair]
  | cons c cs ih =>
    intro k h
    cases k with
    | zero => rfl
    | succ k =>
      rw [List.take_succ_cons]
      have h1 := hasPair_cons_eq_false.mp h
      apply hasPair_cons_eq_false.mpr
      refine ⟨?_, ih k h1.2⟩
      rintro ⟨hca, hh⟩
      cases cs with
      | nil => simp at hh
      | cons d m =>
        cases k with
        | zero => simp at hh
        | succ k2 =>
          rw [List.take_succ_cons, List.head?_cons] at hh
          exact h1.1 ⟨hca, by rw [List.head?_cons]; exact hh⟩

theorem prepare_pre_eq_of_markup_free {x : List Char}
    (ha : '&' ∉ x) (hb : '<' ∉ x) (hc : '>' ∉ x)
    (hd : hasPair '-' ' ' x = false) :
    prepare_pre x = pyReplace x ['.', ' '] ['.', '\n'] := by
  simp only [prepare_pre]
  rw [pyReplace_id_of_not_mem (show ('<' : Char) ∈ "<li>".toList by decide) hb,
    pyReplace_id_of_not_mem (show ('<' : Char) ∈ "</li>".toList by decide) hb,
    pyReplace_id_of_not_mem (show ('<' : Char) ∈ "<html>".toList by decide) hb,
    pyReplace_id_of_not_mem (show ('<' : Char) ∈ "</html>".toList by decide) hb,
    pyReplace_id_of_not_mem (show ('<' : Char) ∈ "<body>".toList by decide) hb,
    pyReplace_id_of_not_mem (show ('<' : Char) ∈ "</body>".toList by decide) hb,
    pyReplace_id_of_not_mem (show ('<' : Char) ∈ "<p>".toList by decide) hb,
    pyReplace_id_of_not_mem (show ('<' : Char) ∈ "</p>".toList by decide) hb,
    pyReplace_id_of_not_mem (show ('<' : Char) ∈ "<ul>".toList by decide) hb,
    pyReplace_id_of_not_mem (show ('<' : Char) ∈ "</ul>".toList by decide) hb,
    pyReplace_id_of_not_mem (show ('&' : Char) ∈ ['&'] by decide) ha,
    pyReplace_id_of_not_mem (show ('<' : Char) ∈ ['<'] by decide) hb,
    pyReplace_id_of_not_mem (show ('>' : Char) ∈ ['>'] by decide) hc,
    show ("- ".toList : List Char) = ['-', ' '] from rfl,
    pyReplace_id_of_no_pair hd,
    show (". ".toList : List Char) = ['.', ' '] from rfl,
    show (".\n".toList : List Char) = ['.', '\n'] from rfl]

theorem pySliceTo_of_three_le {s : List Char} {n : Nat} (h : 3 ≤ n) :
    pySliceTo s ((n : Int) - 3) = s.take (n - 3) := by
  unfold pySliceTo
  rw [if_pos (by omega : (0 : Int) ≤ (n : Int) - 3)]
  congr 1
  omega

theorem prepare_message_truncates {x : List Char} {n : Nat} (h3 : 3 ≤ n)
    (hlong : n < (prepare_pre x).length) :
    prepare_message_for_telegram x n
      = (prepare_pre x).take (n - 3) ++ "...".toList
    ∧ (prepare_message_for_telegram x n).length = n := by
  have h1 : prepare_message_for_telegram x n
      = (prepare_pre x).take (n - 3) ++ "...".toList := by
    simp only [prepare_message_for_telegram]
    rw [if_pos hlong, pySliceTo_of_three_le h3]
  refine ⟨h1, ?_⟩
  rw [h1, List.length_append, List.length_take,
    show ("...".toList : List Char).length = 3 from rfl]
  omega

theorem prepare_message_short {x : List Char} {n : Nat}
    (hshort : ¬n < (prepare_pre x).length) :
    prepare_message_for_telegram x n = prepare_pre x := by
  simp only [prepare_message_for_telegram]
  rw [if_neg hshort]

/-! ## Formatter claim theorems -/

/-- C1 (amended): for every input and every maxChars in [3,4096], the
formatter output has at most maxChars characters, and whenever the
pre-truncation text exceeds maxChars the output is its first maxChars-3
characters followed by the ellipsis.  (For maxChars 1 and 2 the bound
fails — see the counterexample.) -/
theorem c1_formatter_bound (raw : List Char) (n : Nat)
    (h3 : 3 ≤ n) (h4096 : n ≤ 4096) :
    (prepare_message_for_telegram raw n).length ≤ n
    ∧ (n < (prepare_pre raw).length →
        prepare_message_for_telegram raw n
          = (prepare_pre raw).take (n - 3) ++ "...".toList) := by
  by_cases hlong : n < (prepare_pre raw).length
  · have h := prepare_message_truncates h3 hlong
    exact ⟨le_of_eq h.2, fun _ => h.1⟩
  · rw [prepare_message_short hlong]
    exact ⟨by omega, fun hl => absurd hl hlong⟩

/-- Witness for C1 at `"abcdefgh"`, maxChars 5: output is `"ab..."`. -/
theorem c1_formatter_bound_witness :
    (3 : Nat) ≤ 5 ∧ (5 : Nat) ≤ 4096
    ∧ (prepare_message_for_telegram "abcdefgh".toList 5).length ≤ 5
    ∧ (5 < (prepare_pre "abcdefgh".toList).length →
        prepare_message_for_telegram "abcdefgh".toList 5
          = (prepare_pre "abcdefgh".toList).take (5 - 3) ++ "...".toList) :=
  ⟨by omega, by omega,
   (c1_formatter_bound "abcdefgh".toList 5 (by omega) (by omega)).1,
   (c1_formatter_bound "abcdefgh".toList 5 (by omega) (by omega)).2⟩

/-- Counterexample to C1 as stated: at maxChars = 1, inside the claimed
range [1,4096], the output of `format("ab", 1)` is `"..."`, which is
longer than maxChars (the Python slice `[:-2]` drops characters from the
end instead of keeping maxChars-3 ones). -/
theorem c1_counterexample :
    (1 : Nat) ≤ 1 ∧ (1 : Nat) ≤ 4096
    ∧ 1 < (prepare_message_for_telegram "ab".toList 1).length := by
  decide

/-- C7 (amended): for every input whose pre-truncation formatted text is
longer than 10 characters, `format(input, 10)` has length exactly 10 and
ends with the ellipsis. -/
theorem c7_truncation_exact (raw : List Char)
    (h : 10 < (prepare_pre raw).length) :
    (prepare_message_for_telegram raw 10).length = 10
    ∧ (prepare_message_for_telegram raw 10).drop 7 = "...".toList := by
  have hp := prepare_message_truncates (by omega) h
  refine ⟨hp.2, ?_⟩
  rw [hp.1]
  have hlen : ((prepare_pre raw).take (10 - 3)).length = 7 := by
    rw [List.length_take]; omega
  rw [show (7 : Nat) = ((prepare_pre raw).take (10 - 3)).length from hlen.symm,
    List.drop_left]

/-- Witness for C7 at `"abcdefghijkl"` (12 characters, unchanged by the
transformation steps): output is `"abcdefg..."`. -/
theorem c7_truncation_exact_witness :
    10 < (prepare_pre "abcdefghijkl".toList).length
    ∧ (prepare_message_for_telegram "abcdefghijkl".toList 10).length = 10
    ∧ (prepare_message_for_telegram "abcdefghijkl".toList 10).drop 7
      = "...".toList :=
  ⟨by decide,
   (c7_truncation_exact "abcdefghijkl".toList (by decide)).1,
   (c7_truncation_exact "abcdefghijkl".toList (by decide)).2⟩

/-- Counterexample to C7 as stated: `"<p></p><ul></ul>"` has 16 > 10
characters, but tag stripping empties it, so the output has length 0,
not 10. -/
theorem c7_counterexample :
    10 < ("<p></p><ul></ul>".toList).length
    ∧ (prepare_message_for_telegram "<p></p><ul></ul>".toList 10).length = 0 := by
  decide

/-- C8 (amended): the formatter is idempotent on markup-free input — no
`&`, `<`, `>` (hence none of the literal tag tokens) — that moreover
contains no dash-bullet token `"- "`, provided maxChars ≥ 3.  (Inputs
containing `"- "` are rewritten again on the second pass, and maxChars
less than 3 re-truncates — see the counterexample.) -/
theorem c8_format_idempotent (x : List Char) (n : Nat)
    (ha : '&' ∉ x) (hb : '<' ∉ x) (hc : '>' ∉ x)
    (hd : hasPair '-' ' ' x = false) (h3 : 3 ≤ n) :
    prepare_message_for_telegram (prepare_message_for_telegram x n) n
      = prepare_message_for_telegram x n := by
  have hpre : prepare_pre x = pyReplace x ['.', ' '] ['.', '\n'] :=
    prepare_pre_eq_of_markup_free ha hb hc hd
  have t_amp : '&' ∉ pyReplace x ['.', ' '] ['.', '\n'] := by
    intro h
    rcases mem_pyReplace h with h | h
    · exact ha h
    · simp at h
  have t_lt : '<' ∉ pyReplace x ['.', ' '] ['.', '\n'] := by
    intro h
    rcases mem_pyReplace h with h | h
    · exact hb h
    · simp at h
  have t_gt : '>' ∉ pyReplace x ['.', ' '] ['.', '\n'] := by
    intro h
    rcases mem_pyReplace h with h | h
    · exact hc h
    · simp at h
  have t_dash : hasPair '-' ' ' (pyReplace x ['.', ' '] ['.', '\n']) = false :=
    no_dashspace_after_dot_replace hd
  have t_dot : hasPair '.' ' ' (pyReplace x ['.', ' '] ['.', '\n']) = false :=
    no_dotspace_after_dot_replace x
  by_cases hlong : n < (prepare_pre x).length
  · -- truncating case: the output is take (n-3) ++ "..." and has length n
    have h1 := prepare_message_truncates h3 hlong
    rw [hpre] at h1 hlong
    have y_amp : '&' ∉ (pyReplace x ['.', ' '] ['.', '\n']).take (n - 3)
        ++ "...".toList := by
      intro h
      rcases List.mem_append.mp h with h | h
      · exact t_amp (List.mem_of_mem_take h)
      · exact absurd h (by decide)
    have y_lt : '<' ∉ (pyReplace x ['.', ' '] ['.', '\n']).take (n - 3)
        ++ "...".toList := by
      intro h
      rcases List.mem_append.mp h with h | h
      · exact t_lt (List.mem_of_mem_take h)
      · exact absurd h (by decide)
    have y_gt : '>' ∉ (pyReplace x ['.', ' '] ['.', '\n']).take (n - 3)
        ++ "...".toList := by
      intro h
      rcases List.mem_append.mp h with h | h
      · exact t_gt (List.mem_of_mem_take h)
      · exact absurd h (by decide)
    have y_dash : hasPair '-' ' '
        ((pyReplace x ['.', ' '] ['.', '\n']).take (n - 3) ++ "...".toList)
        = false :=
      hasPair_append_false (hasPair_take_false _ _ t_dash) (by decide) (by decide)
    have y_dot : hasPair '.' ' '
        ((pyReplace x ['.', ' '] ['.', '\n']).take (n - 3) ++ "...".toList)
        = false :=
      hasPair_append_false (hasPair_take_false _ _ t_dot) (by decide) (by decide)
    have hpy : prepare_pre ((pyReplace x ['.', ' '] ['.', '\n']).take (n - 3)
        ++ "...".toList)
        = (pyReplace x ['.', ' '] ['.', '\n']).take (n - 3) ++ "...".toList := by
      rw [prepare_pre_eq_of_markup_free y_amp y_lt y_gt y_dash]
      exact pyReplace_id_of_no_pair y_dot _
    have hylen : ((pyReplace x ['.', ' '] ['.', '\n']).take (n - 3)
        ++ "...".toList).length = n := by
      rw [List.length_append, List.length_take,
        show ("...".toList : List Char).length = 3 from rfl]
      omega
    rw [h1.1]
    have hshort : ¬n < (prepare_pre ((pyReplace x ['.', ' '] ['.', '\n']).take (n - 3)
        ++ "...".toList)).length := by
      rw [hpy, hylen]
      omega
    exact (prepare_message_short hshort).trans hpy
  · -- short case: the output is the pre-truncation text itself
    have h1 : prepare_message_for_telegram x n = prepare_pre x :=
      prepare_message_short hlong
    have hpt : prepare_pre (pyReplace x ['.', ' '] ['.', '\n'])
        = pyReplace x ['.', ' '] ['.', '\n'] := by
      rw [prepare_pre_eq_of_markup_free t_amp t_lt t_gt t_dash]
      exact pyReplace_id_of_no_pair t_dot _
    rw [h1, hpre]
    have hshort : ¬n < (prepare_pre (pyReplace x ['.', ' '] ['.', '\n'])).length := by
      rw [hpt]
      rw [hpre] at hlong
      exact hlong
    exact (prepare_message_short hshort).trans hpt

/-- Witness for C8 at `"hello. world"`, maxChars 5: the first pass yields
`"he..."`, and the second pass leaves it unchanged. -/
theorem c8_format_idempotent_witness :
    ('&' ∉ "hello. world".toList ∧ '<' ∉ "hello. world".toList
      ∧ '>' ∉ "hello. world".toList
      ∧ hasPair '-' ' ' "hello. world".toList = false ∧ (3 : Nat) ≤ 5)
    ∧ prepare_message_for_telegram
        (prepare_message_for_telegram "hello. world".toList 5) 5
      = prepare_message_for_telegram "hello. world".toList 5 :=
  ⟨⟨by decide, by decide, by decide, by decide, by omega⟩,
   c8_format_idempotent "hello. world".toList 5 (by decide) (by decide)
     (by decide) (by decide) (by omega)⟩

/-- Counterexample to C8 as stated: `"a- b"` is markup-free (no tag
tokens, no `&`, `<`, `>`), yet a second formatting pass rewrites the
newly inserted bullet again: `format("a- b") = "a\n-  b"` but
`format("a\n-  b") = "a\n\n-   b"`. -/
theorem c8_counterexample :
    ('&' ∉ "a- b".toList ∧ '<' ∉ "a- b".toList ∧ '>' ∉ "a- b".toList)
    ∧ prepare_message_for_telegram
        (prepare_message_for_telegram "a- b".toList 100) 100
      ≠ prepare_message_for_telegram "a- b".toList 100 := by
  decide
